import Mathlib

/-!
# Verification of the mailprobe-py core against its specification

The repository ships only the test-suite and example scripts; the package
`mailprobe` itself (database, filter, message, tokenizer modules) is not in
the source tree.  Every definition below is therefore modelled from the
specification document (data model §3, component design §4, external
interfaces §6, testable properties §8), with the test files used to fix
signatures (`WordData`, `WordDatabase.update_word_counts`, `add_message`,
`remove_message`, `cleanup_old_words`, `export_words` / `import_words`,
`MailFilter.train_message` / `score_message`, `EmailMessage.get_header`,
`EmailTokenizer.tokenize_message`).

Counts are natural numbers (the spec demands they never go negative and the
update path clamps at zero); probabilities are exact rationals standing for
the IEEE-754 doubles of the implementation; timestamps are naturals
(seconds since the epoch).
-/

namespace MailProbe

/-- Modelled from the spec: §3 TermRecord / `mailprobe.database.WordData`.
Per storage key the store keeps the good and spam occurrence counts and the
time of the most recent mutation. -/
structure WordData where
  term : String
  good_count : Nat
  spam_count : Nat
  last_update : Nat
deriving Repr, DecidableEq

/-- Total occurrences of the term (`WordData.total_count`). -/
def WordData.total_count (wd : WordData) : Nat :=
  wd.good_count + wd.spam_count

/-- Modelled from the spec: §4.3 "clamp to [0.01, 0.99]". -/
def clampProb (p : ℚ) : ℚ :=
  min (99/100) (max (1/100) p)

/-- Modelled from the spec: §4.3 per-term probability
(`WordData.calculate_probability(good_total, spam_total, min_word_count,
new_word_score)`).  If `good_count + spam_count < min_word_count` the prior
`new_word_score` is returned; otherwise the corpus-normalized spam ratio
`(s / max(S,1)) / ((s / max(S,1)) + (g / max(G,1)))` clamped to
`[0.01, 0.99]`. -/
def WordData.calculate_probability (wd : WordData) (goodTotal spamTotal : Nat)
    (minWordCount : Nat) (newWordScore : ℚ) : ℚ :=
  if wd.good_count + wd.spam_count < minWordCount then
    newWordScore
  else
    let spamFreq : ℚ := (wd.spam_count : ℚ) / (max spamTotal 1 : Nat)
    let goodFreq : ℚ := (wd.good_count : ℚ) / (max goodTotal 1 : Nat)
    clampProb (spamFreq / (spamFreq + goodFreq))

/-- Replace the first binding of key `k` in an association list, or append
a new binding when none is present (dictionary assignment). -/
def setAssoc {α : Type} : List (String × α) → String → α → List (String × α)
  | [], k, v => [(k, v)]
  | (k', v') :: rest, k, v =>
      if k' = k then (k, v) :: rest else (k', v') :: setAssoc rest k v

/-- Remove the first binding of key `k` from an association list
(dictionary deletion). -/
def removeAssoc {α : Type} : List (String × α) → String → List (String × α)
  | [], _ => []
  | (k', v') :: rest, k => if k' = k then rest else (k', v') :: removeAssoc rest k

/-- Modelled from the spec: §3 MessageRegistry + GlobalCounters and the
word table, bundled as `mailprobe.database.WordDatabase`.  `messages` maps
a message digest to its classification (`true` = spam); the two counters
are the global message counts. -/
structure WordDatabase where
  words : List (String × WordData)
  messages : List (String × Bool)
  good_message_count : Nat
  spam_message_count : Nat
deriving Repr, DecidableEq

/-- A freshly created (empty) database. -/
def WordDatabase.empty : WordDatabase :=
  ⟨[], [], 0, 0⟩

/-- `get(key)` — pure read of a term record. -/
def WordDatabase.get_word_data (db : WordDatabase) (k : String) : Option WordData :=
  db.words.lookup k

/-- `globals()` — the pair `(good_total, spam_total)`. -/
def WordDatabase.get_message_counts (db : WordDatabase) : Nat × Nat :=
  (db.good_message_count, db.spam_message_count)

/-- Modelled from the spec: §3 `WordData.update_counts` — applies signed
deltas, clamps the counts at zero, refreshes `last_update`. -/
def WordData.update_counts (wd : WordData) (dg ds : Int) (now : Nat) : WordData :=
  { wd with
      good_count := ((wd.good_count : Int) + dg).toNat,
      spam_count := ((wd.spam_count : Int) + ds).toNat,
      last_update := now }

/-- Apply one keyed delta to the word table, creating the record when
missing (counts start at zero). -/
def updateWordEntry (ws : List (String × WordData)) (k : String) (dg ds : Int)
    (now : Nat) : List (String × WordData) :=
  match ws.lookup k with
  | some wd => setAssoc ws k (wd.update_counts dg ds now)
  | none => setAssoc ws k ((WordData.mk k 0 0 now).update_counts dg ds now)

/-- Modelled from the spec: §4.2 `bulk_update(key → (Δgood, Δspam))` /
`WordDatabase.update_word_counts` — applies signed deltas, creates missing
records, clamps counts at zero, refreshes each touched record's
`last_update`. -/
def WordDatabase.update_word_counts (db : WordDatabase)
    (updates : List (String × Int × Int)) (now : Nat) : WordDatabase :=
  { db with
      words := updates.foldl (fun ws u => updateWordEntry ws u.1 u.2.1 u.2.2 now) db.words }

/-- Modelled from the spec: §4.2 `register_message(digest, label)` /
`WordDatabase.add_message` — inserts or overwrites the registry entry and
updates the global counters: previously absent increments the matching
counter; a different previous label decrements the old counter and
increments the new one; the same label is a no-op. -/
def WordDatabase.add_message (db : WordDatabase) (digest : String) (isSpam : Bool) :
    WordDatabase :=
  match db.messages.lookup digest with
  | none =>
      { db with
          messages := setAssoc db.messages digest isSpam,
          good_message_count :=
            if isSpam then db.good_message_count else db.good_message_count + 1,
          spam_message_count :=
            if isSpam then db.spam_message_count + 1 else db.spam_message_count }
  | some old =>
      if old = isSpam then db
      else
        { db with
            messages := setAssoc db.messages digest isSpam,
            good_message_count :=
              if isSpam then db.good_message_count - 1 else db.good_message_count + 1,
            spam_message_count :=
              if isSpam then db.spam_message_count + 1 else db.spam_message_count - 1 }

/-- Modelled from the spec: §4.2 `unregister_message(digest)` /
`WordDatabase.remove_message` — removes the registry entry, decrements the
matching global counter, returns the prior label (`none` when the digest
was not registered, in which case nothing changes). -/
def WordDatabase.remove_message (db : WordDatabase) (digest : String) :
    Option Bool × WordDatabase :=
  match db.messages.lookup digest with
  | none => (none, db)
  | some old =>
      (some old,
       { db with
           messages := removeAssoc db.messages digest,
           good_message_count :=
             if old then db.good_message_count else db.good_message_count - 1,
           spam_message_count :=
             if old then db.spam_message_count - 1 else db.spam_message_count })

/-- Modelled from the spec: §4.2 cleanup removal predicate — a record is
removed when `good_count + spam_count ≤ max_count` AND `last_update <
now - max_age_days*86400`, the age predicate being vacuously true when
`max_age_days == 0`. -/
def cleanupPred (maxCount maxAgeDays now : Nat) (wd : WordData) : Bool :=
  decide (wd.good_count + wd.spam_count ≤ maxCount) &&
    (decide (maxAgeDays = 0) || decide (wd.last_update + maxAgeDays * 86400 < now))

/-- Modelled from the spec: §4.2 `cleanup(max_count, max_age_days)` /
`WordDatabase.cleanup_old_words` — removes exactly the records satisfying
`cleanupPred` and returns how many were removed. -/
def WordDatabase.cleanup_old_words (db : WordDatabase)
    (maxCount maxAgeDays now : Nat) : Nat × WordDatabase :=
  ((db.words.filter (fun e => cleanupPred maxCount maxAgeDays now e.2)).length,
   { db with
       words := db.words.filter (fun e => ! cleanupPred maxCount maxAgeDays now e.2) })

/-- Modelled from the spec: §4.2 `export() → iterator of (key, good, spam)`
/ `WordDatabase.export_words`. -/
def WordDatabase.export_words (db : WordDatabase) : List (String × Nat × Nat) :=
  db.words.map (fun e => (e.1, e.2.good_count, e.2.spam_count))

/-- Apply imported records in order: replace-or-add with the exact counts
from the iterator. -/
def importList (ws : List (String × WordData)) :
    List (String × Nat × Nat) → Nat → List (String × WordData)
  | [], _ => ws
  | (k, g, s) :: rest, now => importList (setAssoc ws k (WordData.mk k g s now)) rest now

/-- Modelled from the spec: §4.2 `import(iter)` / `WordDatabase.import_words`
— replaces-or-adds records with exact counts from the iterator, returns the
number of records applied, and does not touch the registry or the global
counters. -/
def WordDatabase.import_words (db : WordDatabase)
    (entries : List (String × Nat × Nat)) (now : Nat) : Nat × WordDatabase :=
  (entries.length, { db with words := importList db.words entries now })

/-- Number of registry entries currently carrying the label `b`
(`true` = spam, `false` = good). -/
def countLabel (b : Bool) : List (String × Bool) → Nat
  | [] => 0
  | e :: rest => (if e.2 = b then 1 else 0) + countLabel b rest

/-- The global counters agree with the number of digests registered under
each label (spec §3: "Global counters move in lock-step with registry
insertions/removals/reclassifications"). -/
def countersConsistent (db : WordDatabase) : Prop :=
  db.good_message_count = countLabel false db.messages ∧
  db.spam_message_count = countLabel true db.messages

/-- One registry operation: `add_message` (register) or `remove_message`
(unregister). -/
inductive RegistryOp where
  | add (digest : String) (isSpam : Bool)
  | remove (digest : String)
deriving Repr, DecidableEq

/-- Apply one registry operation to the database. -/
def applyRegistryOp (db : WordDatabase) : RegistryOp → WordDatabase
  | .add d l => db.add_message d l
  | .remove d => (db.remove_message d).2

/-- Run a sequence of registry operations left to right. -/
def runRegistryOps (db : WordDatabase) (ops : List RegistryOp) : WordDatabase :=
  ops.foldl applyRegistryOp db

/-- Modelled from the spec: §4.3 step 1 — per-key occurrence counts within
one message, each clamped to `max_word_repeats`.  Keys are listed in first
encounter order. -/
def keyCounts (keys : List String) (maxRepeats : Nat) : List (String × Nat) :=
  keys.dedup.map (fun k => (k, min (keys.count k) maxRepeats))

/-- Forward training deltas for a message: only the column of the trained
label is non-zero (spec §4.4). -/
def trainDeltas (keys : List String) (maxRepeats : Nat) (isSpam : Bool) :
    List (String × Int × Int) :=
  (keyCounts keys maxRepeats).map
    (fun kc => (kc.1, if isSpam then ((0 : Int), (kc.2 : Int)) else ((kc.2 : Int), 0)))

/-- Reclassification deltas: reverse the old label's column and apply the
new label's column in one atomic update (spec §4.4). -/
def reclassDeltas (keys : List String) (maxRepeats : Nat) (newIsSpam : Bool) :
    List (String × Int × Int) :=
  (keyCounts keys maxRepeats).map
    (fun kc =>
      (kc.1,
       if newIsSpam then (-(kc.2 : Int), (kc.2 : Int)) else ((kc.2 : Int), -(kc.2 : Int))))

/-- Modelled from the spec: §4.4 `train(message, label, force_update)` /
`MailFilter.train_message`.  The message is represented by its digest and
its token key stream.  Absent digest: apply forward deltas, register,
return true.  Present with the same label: return false unless forced (in
which case the forward deltas are applied again).  Present with the
opposite label: apply the reclassification deltas, update the registry and
both globals, return true. -/
def train_message (db : WordDatabase) (digest : String) (keys : List String)
    (maxRepeats : Nat) (isSpam : Bool) (force : Bool) (now : Nat) :
    Bool × WordDatabase :=
  match db.messages.lookup digest with
  | none =>
      (true,
       (db.update_word_counts (trainDeltas keys maxRepeats isSpam) now).add_message
         digest isSpam)
  | some old =>
      if old = isSpam then
        if force then
          (true, db.update_word_counts (trainDeltas keys maxRepeats isSpam) now)
        else
          (false, db)
      else
        (true,
         (db.update_word_counts (reclassDeltas keys maxRepeats isSpam) now).add_message
           digest isSpam)

/-- Modelled from the spec: §4.3 scorer configuration /
`mailprobe.filter.FilterConfig`.  Probabilities are exact rationals; the
default floating-point values are represented by the exact rationals of
their IEEE-754 double encodings. -/
structure FilterConfig where
  spam_threshold : ℚ
  min_word_count : Nat
  new_word_score : ℚ
  terms_for_score : Nat
  max_word_repeats : Nat
  extend_top_terms : Bool
  min_distance_for_score : ℚ
deriving Repr, DecidableEq

/-- The default configuration: `spam_threshold=0.9`, `min_word_count=5`,
`new_word_score=0.4`, `terms_for_score=15`, `max_word_repeats=2`,
`extend_top_terms=false`, `min_distance_for_score=0.1`, with the three
doubles rendered as the exact rationals they are stored as in IEEE-754
binary64 (`0.4` is slightly above `2/5`, `0.1` slightly above `1/10`, so
`|0.4 - 0.5| < 0.1` holds for the stored values). -/
def defaultConfig : FilterConfig where
  spam_threshold := 8106479329266893 / 9007199254740992
  min_word_count := 5
  new_word_score := 3602879701896397 / 9007199254740992
  terms_for_score := 15
  max_word_repeats := 2
  extend_top_terms := false
  min_distance_for_score := 3602879701896397 / 36028797018963968

/-- The score record returned by `score_message` (spec §4.3 step 5). -/
structure MailScore where
  probability : ℚ
  is_spam : Bool
  confidence : ℚ
  terms_used : Nat
deriving Repr, DecidableEq

/-- Distance of a probability from the neutral 0.5. -/
def distHalf (p : ℚ) : ℚ :=
  |p - 1/2|

/-- Per-term probability as seen by the scorer: look the key up in the
store (an absent key scores as a fresh record with zero counts) and apply
`calculate_probability` with the global message counts. -/
def termProb (db : WordDatabase) (cfg : FilterConfig) (k : String) : ℚ :=
  ((db.get_word_data k).getD (WordData.mk k 0 0 0)).calculate_probability
    db.good_message_count db.spam_message_count cfg.min_word_count cfg.new_word_score

/-- Candidate ordering: by distance from 0.5 descending, ties broken by
lexicographic key order (spec §9 mandates this tie-breaker). -/
def termBefore (a b : String × Nat × ℚ) : Bool :=
  decide (distHalf b.2.2 < distHalf a.2.2) ||
    (decide (distHalf a.2.2 = distHalf b.2.2) && decide (a.1 ≤ b.1))

/-- Insertion step of the candidate sort. -/
def insertTerm (a : String × Nat × ℚ) : List (String × Nat × ℚ) → List (String × Nat × ℚ)
  | [] => [a]
  | b :: rest => if termBefore a b then a :: b :: rest else b :: insertTerm a rest

/-- Insertion sort of candidates (most informative first). -/
def sortTerms : List (String × Nat × ℚ) → List (String × Nat × ℚ)
  | [] => []
  | a :: rest => insertTerm a (sortTerms rest)

/-- Modelled from the spec: §4.3 steps 2–3 — drop candidates with
`|p - 0.5| < min_distance_for_score`, sort by distance descending, take the
top `terms_for_score`, extending through ties when `extend_top_terms`. -/
def selectTerms (cfg : FilterConfig) (cands : List (String × Nat × ℚ)) :
    List (String × Nat × ℚ) :=
  let kept := cands.filter (fun c => decide (cfg.min_distance_for_score ≤ distHalf c.2.2))
  let sorted := sortTerms kept
  let top := sorted.take cfg.terms_for_score
  if cfg.extend_top_terms then
    match top.getLast? with
    | none => top
    | some last =>
        top ++ (sorted.drop cfg.terms_for_score).takeWhile
          (fun c => decide (distHalf c.2.2 = distHalf last.2.2))
  else
    top

/-- Products `(∏ pᵢ^kᵢ, ∏ (1-pᵢ)^kᵢ)` over the selected terms, each term
entering with its clamped repetition count (spec §4.3 steps 4–5). -/
def prodPow (sel : List (String × Nat × ℚ)) : ℚ × ℚ :=
  sel.foldl (fun acc c => (acc.1 * c.2.2 ^ c.2.1, acc.2 * (1 - c.2.2) ^ c.2.1)) (1, 1)

/-- Largest distance from 0.5 among the selected terms. -/
def maxDist (sel : List (String × Nat × ℚ)) : ℚ :=
  sel.foldl (fun acc c => max acc (distHalf c.2.2)) 0

/-- Modelled from the spec: §4.3 steps 4–5 — combine the selected terms via
the Bayesian chain `P = ∏pᵢ / (∏pᵢ + ∏(1-pᵢ))`; with no selected terms the
prior `new_word_score` is returned (spec §8 scenario 1). -/
def mkScore (cfg : FilterConfig) (sel : List (String × Nat × ℚ)) : MailScore :=
  if sel.isEmpty then
    { probability := cfg.new_word_score,
      is_spam := decide (cfg.spam_threshold ≤ cfg.new_word_score),
      confidence := 0,
      terms_used := 0 }
  else
    { probability := (prodPow sel).1 / ((prodPow sel).1 + (prodPow sel).2),
      is_spam := decide (cfg.spam_threshold ≤ (prodPow sel).1 / ((prodPow sel).1 + (prodPow sel).2)),
      confidence := maxDist sel * 2,
      terms_used := sel.length }

/-- Modelled from the spec: §4.3 message scoring /
`MailFilter.score_message` (scoring_mode `normal`): clamp per-key counts,
compute per-term probabilities, select the informative terms, and build the
score from the selection. -/
def score_message (db : WordDatabase) (cfg : FilterConfig) (keys : List String) :
    MailScore :=
  mkScore cfg
    (selectTerms cfg
      ((keyCounts keys cfg.max_word_repeats).map
        (fun kc => (kc.1, kc.2, termProb db cfg kc.1))))

/-- ASCII whitespace as recognized by Python's `str.strip`. -/
def isWS (c : Char) : Bool :=
  c = ' ' || c = '\t' || c = '\n' || c = '\r'

/-- ASCII lowercasing of one character (Python `str.lower` on ASCII). -/
def lowerChar (c : Char) : Char :=
  if 65 ≤ c.toNat ∧ c.toNat ≤ 90 then Char.ofNat (c.toNat + 32) else c

/-- ASCII lowercasing of a string. -/
def lowerStr (s : String) : String :=
  String.mk (s.data.map lowerChar)

/-- Drop trailing whitespace from a character list. -/
def rstripChars (l : List Char) : List Char :=
  (l.reverse.dropWhile isWS).reverse

/-- Python `str.rstrip`: trailing whitespace removed. -/
def rstrip (s : String) : String :=
  String.mk (rstripChars s.data)

/-- Python `str.strip`: leading and trailing whitespace removed. -/
def stripStr (s : String) : String :=
  String.mk ((rstripChars s.data).dropWhile isWS)

/-- Split a character stream into lines at every newline. -/
def splitLinesAux : List Char → List Char → List String
  | [], acc => [String.mk acc.reverse]
  | c :: rest, acc =>
      if c = '\n' then String.mk acc.reverse :: splitLinesAux rest []
      else splitLinesAux rest (c :: acc)

/-- All lines of a string (separator `\n`). -/
def splitLines (s : String) : List String :=
  splitLinesAux s.data []

/-- Split a header line at the first colon. -/
def splitAtColon : List Char → Option (List Char × List Char)
  | [] => none
  | c :: rest =>
      if c = ':' then some ([], rest)
      else
        match splitAtColon rest with
        | some pq => some (c :: pq.1, pq.2)
        | none => none

/-- Parse one `Name: value` header line: the name is lowercased (headers
match case-insensitively), the value is stripped of surrounding
whitespace.  Lines without a colon are ignored. -/
def parseHeaderLine (line : String) : Option (String × String) :=
  match splitAtColon line.data with
  | some nv => some (lowerStr (String.mk nv.1), stripStr (String.mk nv.2))
  | none => none

/-- Modelled from the spec: §3 Message / `mailprobe.message.EmailMessage`
— a case-insensitive header mapping (names stored lowercased) and the
decoded body. -/
structure EmailMessage where
  headers : List (String × String)
  body : String
deriving Repr, DecidableEq

/-- Modelled from the spec: §6 message input format — RFC-822 headers up
to the first blank line, then the body. -/
def parseMessage (raw : String) : EmailMessage :=
  let ls := splitLines raw
  { headers := (ls.takeWhile (fun l => ! (l == ""))).filterMap parseHeaderLine,
    body := String.intercalate "\n" ((ls.dropWhile (fun l => ! (l == ""))).drop 1) }

/-- `EmailMessage.get_header(name, default)` — case-insensitive, total;
returns the caller-supplied default when the header is absent. -/
def EmailMessage.get_header (m : EmailMessage) (name d : String) : String :=
  (m.headers.lookup (lowerStr name)).getD d

/-- `EmailMessage.get_header(name)` with the default defaulted to `""`. -/
def EmailMessage.get_header_default (m : EmailMessage) (name : String) : String :=
  m.get_header name ""

/-- `EmailMessage.has_header(name)` — case-insensitive presence test. -/
def EmailMessage.has_header (m : EmailMessage) (name : String) : Bool :=
  (m.headers.lookup (lowerStr name)).isSome

/-- UTF-8 encoding of one character, as a list of byte values. -/
def encodeChar (c : Char) : List Nat :=
  let n := c.toNat
  if n < 128 then [n]
  else if n < 2048 then [192 + n / 64, 128 + n % 64]
  else if n < 65536 then [224 + n / 4096, 128 + n / 64 % 64, 128 + n % 64]
  else [240 + n / 262144, 128 + n / 4096 % 64, 128 + n / 64 % 64, 128 + n % 64]

/-- UTF-8 encoding of a character list. -/
def utf8Encode : List Char → List Nat
  | [] => []
  | c :: rest => encodeChar c ++ utf8Encode rest

/-- The 64 MD5 round constants `floor(2^32 * |sin(i+1)|)`. -/
def md5K : List Nat :=
  [3614090360, 3905402710, 606105819, 3250441966, 4118548399, 1200080426,
   2821735955, 4249261313, 1770035416, 2336552879, 4294925233, 2304563134,
   1804603682, 4254626195, 2792965006, 1236535329, 4129170786, 3225465664,
   643717713, 3921069994, 3593408605, 38016083, 3634488961, 3889429448,
   568446438, 3275163606, 4107603335, 1163531501, 2850285829, 4243563512,
   1735328473, 2368359562, 4294588738, 2272392833, 1839030562, 4259657740,
   2763975236, 1272893353, 4139469664, 3200236656, 681279174, 3936430074,
   3572445317, 76029189, 3654602809, 3873151461, 530742520, 3299628645,
   4096336452, 1126891415, 2878612391, 4237533241, 1700485571, 2399980690,
   4293915773, 2240044497, 1873313359, 4264355552, 2734768916, 1309151649,
   4149444226, 3174756917, 718787259, 3951481745]

/-- The MD5 per-round left-rotation amounts. -/
def md5S : List Nat :=
  [7, 12, 17, 22, 7, 12, 17, 22, 7, 12, 17, 22, 7, 12, 17, 22,
   5, 9, 14, 20, 5, 9, 14, 20, 5, 9, 14, 20, 5, 9, 14, 20,
   4, 11, 16, 23, 4, 11, 16, 23, 4, 11, 16, 23, 4, 11, 16, 23,
   6, 10, 15, 21, 6, 10, 15, 21, 6, 10, 15, 21, 6, 10, 15, 21]

/-- Rotate a 32-bit word left by `s` bits. -/
def rotl32 (x s : Nat) : Nat :=
  (x * 2 ^ s + x / 2 ^ (32 - s)) % 4294967296

/-- Bitwise complement within 32 bits (for `x < 2^32`). -/
def bnot32 (x : Nat) : Nat :=
  4294967295 - x % 4294967296

/-- MD5 auxiliary functions F, G, H, I. -/
def mdF (b c d : Nat) : Nat := (b &&& c) ||| (bnot32 b &&& d)

def mdG (b c d : Nat) : Nat := (d &&& b) ||| (bnot32 d &&& c)

def mdH (b c d : Nat) : Nat := b ^^^ c ^^^ d

def mdI (b c d : Nat) : Nat := c ^^^ (b ||| bnot32 d)

/-- `n` little-endian bytes of `x`. -/
def leBytes (n x : Nat) : List Nat :=
  (List.range n).map (fun i => x / 256 ^ i % 256)

/-- MD5 padding: a `0x80` byte, zeros to 56 mod 64, then the bit length as
8 little-endian bytes. -/
def md5Pad (msg : List Nat) : List Nat :=
  msg ++ 128 :: List.replicate ((56 + 64 - (msg.length + 1) % 64) % 64) 0
    ++ leBytes 8 (8 * msg.length % 2 ^ 64)

/-- Split a byte list into 64-byte chunks (fuel-driven, structurally
recursive; `fuel ≥ length` suffices). -/
def chunks64Aux : Nat → List Nat → List (List Nat)
  | 0, _ => []
  | _, [] => []
  | fuel + 1, l => l.take 64 :: chunks64Aux fuel (l.drop 64)

/-- Little-endian 32-bit word `j` of a chunk. -/
def leWord (chunk : List Nat) (j : Nat) : Nat :=
  chunk.getD (4 * j) 0 + 256 * chunk.getD (4 * j + 1) 0
    + 65536 * chunk.getD (4 * j + 2) 0 + 16777216 * chunk.getD (4 * j + 3) 0

/-- One MD5 round (round index `i` from 0 to 63). -/
def md5Round (chunk : List Nat) (st : Nat × Nat × Nat × Nat) (i : Nat) :
    Nat × Nat × Nat × Nat :=
  let f :=
    if i < 16 then mdF st.2.1 st.2.2.1 st.2.2.2
    else if i < 32 then mdG st.2.1 st.2.2.1 st.2.2.2
    else if i < 48 then mdH st.2.1 st.2.2.1 st.2.2.2
    else mdI st.2.1 st.2.2.1 st.2.2.2
  let g :=
    if i < 16 then i
    else if i < 32 then (5 * i + 1) % 16
    else if i < 48 then (3 * i + 5) % 16
    else 7 * i % 16
  let tmp := (st.1 + f + md5K.getD i 0 + leWord chunk g) % 4294967296
  (st.2.2.2, (st.2.1 + rotl32 tmp (md5S.getD i 0)) % 4294967296, st.2.1, st.2.2.1)

/-- Process one 64-byte chunk. -/
def md5Chunk (st : Nat × Nat × Nat × Nat) (chunk : List Nat) :
    Nat × Nat × Nat × Nat :=
  let r := (List.range 64).foldl (md5Round chunk) st
  ((st.1 + r.1) % 4294967296, (st.2.1 + r.2.1) % 4294967296,
   (st.2.2.1 + r.2.2.1) % 4294967296, (st.2.2.2 + r.2.2.2) % 4294967296)

/-- MD5 of a byte list: the 16 digest bytes. -/
def md5Bytes (msg : List Nat) : List Nat :=
  let padded := md5Pad msg
  let st := (chunks64Aux padded.length padded).foldl md5Chunk
    (1732584193, 4023233417, 2562383102, 271733878)
  leBytes 4 st.1 ++ leBytes 4 st.2.1 ++ leBytes 4 st.2.2.1 ++ leBytes 4 st.2.2.2

/-- Lowercase hex digit for `n % 16`. -/
def hexChar (n : Nat) : Char :=
  "0123456789abcdef".data.getD (n % 16) '0'

/-- Two lowercase hex digits of a byte. -/
def byteHex (b : Nat) : List Char :=
  [hexChar (b / 16), hexChar b]

/-- Hex rendering of a byte list. -/
def concatMapHex : List Nat → List Char
  | [] => []
  | b :: rest => byteHex b ++ concatMapHex rest

/-- Lowercase hex string of a byte list. -/
def hexString (bytes : List Nat) : String :=
  String.mk (concatMapHex bytes)

/-- Modelled from the spec: §3 — the digest input is the `From` header,
the `Subject` header and the body concatenated in that order with a single
`\n` separator, with trailing whitespace trimmed. -/
def digestInput (m : EmailMessage) : String :=
  rstrip (m.get_header "from" "" ++ "\n" ++ m.get_header "subject" "" ++ "\n" ++ m.body)

/-- Modelled from the spec: §3 / `EmailMessage.digest` — the MD5 of the
digest input, rendered as a 32-character lowercase hex string. -/
def EmailMessage.digest (m : EmailMessage) : String :=
  hexString (md5Bytes (utf8Encode (digestInput m).data))

/-- ASCII alphanumeric test on character codes. -/
def isAlnum (c : Char) : Bool :=
  (48 ≤ c.toNat && c.toNat ≤ 57) || (97 ≤ c.toNat && c.toNat ≤ 122)
    || (65 ≤ c.toNat && c.toNat ≤ 90)

/-- Replace non-ASCII bytes by the configured substitute, then lowercase
(spec §4.1 step 3). -/
def replaceAndLower (repl : Char) (c : Char) : Char :=
  if 128 ≤ c.toNat then repl else lowerChar c

/-- Modelled from the spec: §4.1 step 3 word splitting — alphanumeric runs
form words; `.`, `-` and `@` are kept only inside a word (both neighbours
alphanumeric), modelling "preserves `.` inside numbers, `-` inside
hyphenated words, and `@` inside email addresses". -/
def splitWordsAux : List Char → List Char → List (List Char)
  | [], acc => if acc.isEmpty then [] else [acc.reverse]
  | c :: rest, acc =>
      if isAlnum c then splitWordsAux rest (c :: acc)
      else if (c = '.' || c = '-' || c = '@') && ! acc.isEmpty &&
          (match rest with | r :: _ => isAlnum r | [] => false) then
        splitWordsAux rest (c :: acc)
      else if acc.isEmpty then splitWordsAux rest []
      else acc.reverse :: splitWordsAux rest []

/-- Modelled from the spec: §4.1 word extractor — normalize case and
non-ASCII, split into words, and keep only words whose length lies in
`[min_term_length, max_term_length]`. -/
def extractWords (repl : Char) (minLen maxLen : Nat) (s : String) : List String :=
  ((splitWordsAux (s.data.map (replaceAndLower repl)) []).map String.mk).filter
    (fun w => decide (minLen ≤ w.length) && decide (w.length ≤ maxLen))

/-- Join words with single spaces (the internal separator of phrases). -/
def joinSpace : List String → String
  | [] => ""
  | [w] => w
  | w :: rest => w ++ " " ++ joinSpace rest

/-- All contiguous `n`-grams of a word stream, joined by single spaces. -/
def ngrams (n : Nat) (ws : List String) : List String :=
  (List.range (ws.length + 1 - n)).map (fun i => joinSpace ((ws.drop i).take n))

/-- Token flags (bitset). -/
def FLAG_WORD : Nat := 1

def FLAG_PHRASE : Nat := 2

def FLAG_HEADER : Nat := 4

def FLAG_BODY : Nat := 8

/-- Modelled from the spec: §3 Token — normalized text, flag bitset and
optional key namespace (`prfx`; the source calls this field `prefix`,
which is a reserved word in Lean; the empty string means no namespace). -/
structure Token where
  text : String
  flags : Nat
  prfx : String
deriving Repr, DecidableEq

/-- `Token.is_phrase`. -/
def Token.is_phrase (t : Token) : Bool :=
  t.flags &&& FLAG_PHRASE != 0

/-- `Token.get_key` — `prefix + "_" + text` when a prefix is present,
otherwise just the text. -/
def Token.get_key (t : Token) : String :=
  if t.prfx = "" then t.text else t.prfx ++ "_" ++ t.text

/-- Modelled from the spec: §4.1 tokenizer configuration (the fields the
body pass and phrase generation use). -/
structure TokenizerConfig where
  max_phrase_terms : Nat
  min_phrase_terms : Nat
  min_term_length : Nat
  max_term_length : Nat
  replace_non_ascii : Char
deriving Repr, DecidableEq

/-- Tokenizer defaults: `max_phrase_terms=2`, `min_phrase_terms=1`,
`min_term_length=3`, `max_term_length=40`, `replace_non_ascii='z'`. -/
def defaultTokenizerConfig : TokenizerConfig :=
  ⟨2, 1, 3, 40, 'z'⟩

/-- Modelled from the spec: §4.1 steps 3 and 5 — the body token stream:
WORD tokens for each extracted word, then every contiguous `n`-gram of the
word stream with `n ∈ [min_phrase_terms .. max_phrase_terms]` as a PHRASE
token with a single space as internal separator. -/
def tokenizeBody (cfg : TokenizerConfig) (body : String) : List Token :=
  let ws := extractWords cfg.replace_non_ascii cfg.min_term_length cfg.max_term_length body
  ws.map (fun w => Token.mk w (FLAG_WORD ||| FLAG_BODY) "") ++
    (List.range' cfg.min_phrase_terms
        (cfg.max_phrase_terms + 1 - cfg.min_phrase_terms)).flatMap
      (fun n => (ngrams n ws).map (fun p => Token.mk p (FLAG_PHRASE ||| FLAG_BODY) ""))

/-! ## Theorems -/

theorem clampProb_mem (p : ℚ) : 1/100 ≤ clampProb p ∧ clampProb p ≤ 99/100 := by
  unfold clampProb
  constructor
  · exact le_min (by norm_num) (le_max_left _ _)
  · exact min_le_left _ _

theorem lookup_setAssoc_self {α : Type} (l : List (String × α)) (k : String) (v : α) :
    (setAssoc l k v).lookup k = some v := by
  induction l with
  | nil => simp [setAssoc, List.lookup]
  | cons e rest ih =>
      obtain ⟨k', v'⟩ := e
      by_cases hk : k' = k
      · simp [setAssoc, hk, List.lookup]
      · simp [setAssoc, hk, List.lookup, beq_eq_false_iff_ne.mpr (Ne.symm hk), ih]

theorem lookup_setAssoc_ne {α : Type} (l : List (String × α)) (k k' : String) (v : α)
    (h : k' ≠ k) : (setAssoc l k v).lookup k' = l.lookup k' := by
  induction l with
  | nil => simp [setAssoc, List.lookup, beq_eq_false_iff_ne.mpr h]
  | cons e rest ih =>
      obtain ⟨k₀, v₀⟩ := e
      by_cases hk : k₀ = k
      · subst hk
        simp [setAssoc, List.lookup, beq_eq_false_iff_ne.mpr h]
      · simp only [setAssoc, if_neg hk]
        by_cases hk' : k' = k₀
        · simp [List.lookup, hk']
        · simp [List.lookup, beq_eq_false_iff_ne.mpr hk', ih]

theorem lookup_eq_none_of_not_mem {α : Type} (l : List (String × α)) (k : String)
    (h : k ∉ l.map Prod.fst) : l.lookup k = none := by
  induction l with
  | nil => simp [List.lookup]
  | cons e rest ih =>
      obtain ⟨k', v'⟩ := e
      simp only [List.map, List.mem_cons] at h
      push_neg at h
      simp [List.lookup, beq_eq_false_iff_ne.mpr h.1, ih h.2]

theorem lookup_removeAssoc_self {α : Type} (l : List (String × α)) (k : String)
    (hnd : (l.map Prod.fst).Nodup) : (removeAssoc l k).lookup k = none := by
  induction l with
  | nil => simp [removeAssoc, List.lookup]
  | cons e rest ih =>
      obtain ⟨k', v'⟩ := e
      simp only [List.map, List.nodup_cons] at hnd
      by_cases hk : k' = k
      · subst hk
        simp only [removeAssoc, if_pos rfl]
        exact lookup_eq_none_of_not_mem rest k' hnd.1
      · simp only [removeAssoc, if_neg hk, List.lookup,
          beq_eq_false_iff_ne.mpr (Ne.symm hk)]
        exact ih hnd.2

theorem countLabel_setAssoc_absent (msgs : List (String × Bool)) (k : String)
    (new b : Bool) (h : msgs.lookup k = none) :
    countLabel b (setAssoc msgs k new)
      = countLabel b msgs + (if new = b then 1 else 0) := by
  induction msgs with
  | nil => simp [setAssoc, countLabel]
  | cons e rest ih =>
      obtain ⟨k', v'⟩ := e
      by_cases hk : k' = k
      · subst hk
        simp [List.lookup] at h
      · simp only [List.lookup, beq_eq_false_iff_ne.mpr (Ne.symm hk)] at h
        simp only [setAssoc, if_neg hk, countLabel, ih h]
        omega

theorem countLabel_setAssoc_replace (msgs : List (String × Bool)) (k : String)
    (old new b : Bool) (h : msgs.lookup k = some old) :
    countLabel b (setAssoc msgs k new) + (if old = b then 1 else 0)
      = countLabel b msgs + (if new = b then 1 else 0) := by
  induction msgs with
  | nil => simp [List.lookup] at h
  | cons e rest ih =>
      obtain ⟨k', v'⟩ := e
      by_cases hk : k' = k
      · subst hk
        simp only [List.lookup, beq_self_eq_true] at h
        simp only [Option.some.injEq] at h
        subst h
        simp only [setAssoc, if_pos rfl, countLabel]
        omega
      · simp only [List.lookup, beq_eq_false_iff_ne.mpr (Ne.symm hk)] at h
        simp only [setAssoc, if_neg hk, countLabel]
        have := ih h
        omega

theorem countLabel_removeAssoc (msgs : List (String × Bool)) (k : String)
    (old b : Bool) (h : msgs.lookup k = some old) :
    countLabel b (removeAssoc msgs k) + (if old = b then 1 else 0)
      = countLabel b msgs := by
  induction msgs with
  | nil => simp [List.lookup] at h
  | cons e rest ih =>
      obtain ⟨k', v'⟩ := e
      by_cases hk : k' = k
      · subst hk
        simp only [List.lookup, beq_self_eq_true] at h
        simp only [Option.some.injEq] at h
        subst h
        simp [removeAssoc, countLabel]
        omega
      · simp only [List.lookup, beq_eq_false_iff_ne.mpr (Ne.symm hk)] at h
        simp only [removeAssoc, if_neg hk, countLabel]
        have := ih h
        omega

theorem countLabel_pos (msgs : List (String × Bool)) (k : String) (b : Bool)
    (h : msgs.lookup k = some b) : 1 ≤ countLabel b msgs := by
  induction msgs with
  | nil => simp [List.lookup] at h
  | cons e rest ih =>
      obtain ⟨k', v'⟩ := e
      by_cases hk : k' = k
      · subst hk
        simp only [List.lookup, beq_self_eq_true] at h
        simp only [Option.some.injEq] at h
        subst h
        simp [countLabel]
      · simp only [List.lookup, beq_eq_false_iff_ne.mpr (Ne.symm hk)] at h
        have := ih h
        simp only [countLabel]
        omega

theorem countersConsistent_add (db : WordDatabase) (d : String) (l : Bool)
    (h : countersConsistent db) : countersConsistent (db.add_message d l) := by
  obtain ⟨hg, hs⟩ := h
  unfold WordDatabase.add_message
  cases hd : db.messages.lookup d with
  | none =>
      refine ⟨?_, ?_⟩ <;>
        cases l <;>
          simp [countLabel_setAssoc_absent _ _ _ _ hd, hg, hs]
  | some old =>
      by_cases hol : old = l
      · simp [hol, countersConsistent, hg, hs]
      · simp only [if_neg hol]
        have hf := countLabel_setAssoc_replace db.messages d old l false hd
        have ht := countLabel_setAssoc_replace db.messages d old l true hd
        have hpos := countLabel_pos db.messages d old hd
        refine ⟨?_, ?_⟩ <;> cases l <;> cases old <;> simp_all <;> omega

theorem countersConsistent_remove (db : WordDatabase) (d : String)
    (h : countersConsistent db) : countersConsistent (db.remove_message d).2 := by
  obtain ⟨hg, hs⟩ := h
  unfold WordDatabase.remove_message
  cases hd : db.messages.lookup d with
  | none => exact ⟨hg, hs⟩
  | some old =>
      have hf := countLabel_removeAssoc db.messages d old false hd
      have ht := countLabel_removeAssoc db.messages d old true hd
      have hpos := countLabel_pos db.messages d old hd
      refine ⟨?_, ?_⟩ <;> cases old <;> simp_all <;> omega

theorem countersConsistent_run (db : WordDatabase) (ops : List RegistryOp)
    (h : countersConsistent db) : countersConsistent (runRegistryOps db ops) := by
  induction ops generalizing db with
  | nil => exact h
  | cons op rest ih =>
      simp only [runRegistryOps, List.foldl_cons]
      apply ih
      cases op with
      | add d l => exact countersConsistent_add db d l h
      | remove d => exact countersConsistent_remove db d h

/-- Claim C1: for a term with good count `g`, spam count `s` and global
message counts `G` (good) and `S` (spam), `calculate_probability` returns
exactly `new_word_score` when `g + s < min_word_count`, and otherwise
returns `(s / max(S,1)) / ((s / max(S,1)) + (g / max(G,1)))` clamped into
`[0.01, 0.99]` (in particular the returned value then lies in that
interval). -/
theorem C1_calculate_probability_spec (t : String) (u g s G S m : Nat) (nws : ℚ) :
    (g + s < m →
      WordData.calculate_probability ⟨t, g, s, u⟩ G S m nws = nws) ∧
    (¬ g + s < m →
      WordData.calculate_probability ⟨t, g, s, u⟩ G S m nws =
        min (99/100)
          (max (1/100)
            (((s : ℚ) / (max S 1 : Nat)) /
              (((s : ℚ) / (max S 1 : Nat)) + ((g : ℚ) / (max G 1 : Nat))))) ∧
      1/100 ≤ WordData.calculate_probability ⟨t, g, s, u⟩ G S m nws ∧
      WordData.calculate_probability ⟨t, g, s, u⟩ G S m nws ≤ 99/100) := by
  constructor
  · intro h
    simp [WordData.calculate_probability, h]
  · intro h
    refine ⟨?_, ?_, ?_⟩
    · simp [WordData.calculate_probability, h, clampProb]
    · simp only [WordData.calculate_probability, h, if_false]
      exact (clampProb_mem _).1
    · simp only [WordData.calculate_probability, h, if_false]
      exact (clampProb_mem _).2

/-- Claim C1 witness: the two concrete cases of the test-suite.  With
`good_count=10, spam_count=2` against totals `(100, 50)` the probability is
`(2/50) / (2/50 + 10/100) = 2/7`, inside `[0.01, 0.99]`; with
`good_count=1, spam_count=1` and `min_word_count=5` the prior `0.4` is
returned. -/
theorem C1_calculate_probability_spec_witness :
    WordData.calculate_probability ⟨"rare", 1, 1, 0⟩ 100 50 5 (2/5) = 2/5 ∧
    WordData.calculate_probability ⟨"test", 10, 2, 0⟩ 100 50 5 (2/5) = 2/7 := by
  constructor
  · exact (C1_calculate_probability_spec "rare" 0 1 1 100 50 5 (2/5)).1 (by decide)
  · have h := (C1_calculate_probability_spec "test" 0 10 2 100 50 5 (2/5)).2 (by decide)
    rw [h.1]
    norm_num

theorem updateWordEntry_lookup_self (ws : List (String × WordData)) (k : String)
    (dg ds : Int) (now : Nat) : (updateWordEntry ws k dg ds now).lookup k ≠ none := by
  unfold updateWordEntry
  cases hw : ws.lookup k <;> simp [lookup_setAssoc_self]

theorem updateWordEntry_preserves (ws : List (String × WordData)) (k k' : String)
    (dg ds : Int) (now : Nat) (h : ws.lookup k ≠ none) :
    (updateWordEntry ws k' dg ds now).lookup k ≠ none := by
  by_cases hk : k = k'
  · subst hk
    exact updateWordEntry_lookup_self ws k dg ds now
  · unfold updateWordEntry
    cases hw : ws.lookup k' <;>
      simpa [lookup_setAssoc_ne _ _ _ _ hk] using h

theorem foldl_update_preserves (updates : List (String × Int × Int))
    (ws : List (String × WordData)) (now : Nat) (k : String)
    (h : ws.lookup k ≠ none) :
    (updates.foldl (fun ws u => updateWordEntry ws u.1 u.2.1 u.2.2 now) ws).lookup k
      ≠ none := by
  induction updates generalizing ws with
  | nil => exact h
  | cons u rest ih =>
      simp only [List.foldl_cons]
      exact ih _ (updateWordEntry_preserves ws k u.1 u.2.1 u.2.2 now h)

theorem foldl_update_creates (updates : List (String × Int × Int))
    (ws : List (String × WordData)) (now : Nat) (k : String)
    (h : k ∈ updates.map Prod.fst) :
    (updates.foldl (fun ws u => updateWordEntry ws u.1 u.2.1 u.2.2 now) ws).lookup k
      ≠ none := by
  induction updates generalizing ws with
  | nil => simp at h
  | cons u rest ih =>
      simp only [List.map, List.mem_cons] at h
      simp only [List.foldl_cons]
      by_cases hk : k = u.1
      · subst hk
        exact foldl_update_preserves rest _ now _
          (updateWordEntry_lookup_self ws u.1 u.2.1 u.2.2 now)
      · rcases h with h | h
        · exact absurd h hk
        · exact ih _ h

theorem filter_lookup_pos {α : Type} (l : List (String × α)) (k : String) (v : α)
    (p : α → Bool) (h : l.lookup k = some v) (hp : p v = true) :
    (l.filter (fun e => p e.2)).lookup k = some v := by
  induction l with
  | nil => simp [List.lookup] at h
  | cons e rest ih =>
      obtain ⟨k', v'⟩ := e
      by_cases hk : k = k'
      · subst hk
        simp only [List.lookup, beq_self_eq_true, Option.some.injEq] at h
        subst h
        simp [List.filter, hp, List.lookup]
      · simp only [List.lookup, beq_eq_false_iff_ne.mpr hk] at h
        by_cases hp' : p v' = true
        · simp [List.filter, hp', List.lookup, beq_eq_false_iff_ne.mpr hk, ih h]
        · simp only [Bool.not_eq_true] at hp'
          simp [List.filter, hp', ih h]

theorem filter_lookup_neg {α : Type} (l : List (String × α)) (k : String) (v : α)
    (p : α → Bool) (hnd : (l.map Prod.fst).Nodup) (h : l.lookup k = some v)
    (hp : p v = false) : (l.filter (fun e => p e.2)).lookup k = none := by
  induction l with
  | nil => simp [List.lookup] at h
  | cons e rest ih =>
      obtain ⟨k', v'⟩ := e
      simp only [List.map, List.nodup_cons] at hnd
      by_cases hk : k = k'
      · subst hk
        simp only [List.lookup, beq_self_eq_true, Option.some.injEq] at h
        subst h
        simp only [List.filter, hp]
        apply lookup_eq_none_of_not_mem
        intro hmem
        obtain ⟨e, he, hee⟩ := List.mem_map.mp hmem
        exact hnd.1 (List.mem_map.mpr ⟨e, List.mem_of_mem_filter he, hee⟩)
      · simp only [List.lookup, beq_eq_false_iff_ne.mpr hk] at h
        by_cases hp' : p v' = true
        · simp [List.filter, hp', List.lookup, beq_eq_false_iff_ne.mpr hk, ih hnd.2 h]
        · simp only [Bool.not_eq_true] at hp'
          simp [List.filter, hp', ih hnd.2 h]

theorem length_filter_partition {α : Type} (l : List α) (p : α → Bool) :
    (l.filter p).length + (l.filter (fun x => ! p x)).length = l.length := by
  induction l with
  | nil => rfl
  | cons x rest ih =>
      by_cases hx : p x = true
      · simp [List.filter, hx]; omega
      · simp only [Bool.not_eq_true] at hx
        simp [List.filter, hx]; omega

theorem importList_lookup (entries : List (String × Nat × Nat))
    (ws : List (String × WordData)) (now : Nat) (k : String)
    (hnd : (entries.map Prod.fst).Nodup) :
    (importList ws entries now).lookup k
      = match entries.lookup k with
        | some gs => some (WordData.mk k gs.1 gs.2 now)
        | none => ws.lookup k := by
  induction entries generalizing ws with
  | nil => simp [importList, List.lookup]
  | cons e rest ih =>
      obtain ⟨k0, g, s⟩ := e
      simp only [List.map, List.nodup_cons] at hnd
      simp only [importList]
      rw [ih _ hnd.2]
      by_cases hk : k = k0
      · subst hk
        rw [lookup_eq_none_of_not_mem rest k hnd.1]
        simp [List.lookup, lookup_setAssoc_self]
      · cases hr : rest.lookup k with
        | some gs => simp [List.lookup, beq_eq_false_iff_ne.mpr hk, hr]
        | none =>
            simp [List.lookup, beq_eq_false_iff_ne.mpr hk, hr,
              lookup_setAssoc_ne ws k0 k _ hk]

theorem lookup_map_counts (ws : List (String × WordData)) (k : String) :
    (ws.map (fun e => (e.1, e.2.good_count, e.2.spam_count))).lookup k
      = (ws.lookup k).map (fun wd => (wd.good_count, wd.spam_count)) := by
  induction ws with
  | nil => simp [List.lookup]
  | cons e rest ih =>
      obtain ⟨k', wd⟩ := e
      by_cases hk : k = k'
      · simp [List.lookup, hk]
      · simp [List.lookup, beq_eq_false_iff_ne.mpr hk, ih]

theorem export_keys (ws : List (String × WordData)) :
    (ws.map (fun e => (e.1, e.2.good_count, e.2.spam_count))).map Prod.fst
      = ws.map Prod.fst := by
  induction ws with
  | nil => rfl
  | cons e rest ih => simp [ih]

/-- Claim C3: bulk count updates keep both counts non-negative: deltas
accumulate exactly when the result stays at or above zero and clamp to
zero otherwise; records missing from the table are created by the first
update that touches them; a touched record's `last_update` is
non-decreasing (given that the clock value passed in is at least the
record's current `last_update`). -/
theorem C3_bulk_update_clamps :
    (∀ (wd : WordData) (dg ds : Int) (now : Nat),
      0 ≤ ((wd.update_counts dg ds now).good_count : Int) ∧
      0 ≤ ((wd.update_counts dg ds now).spam_count : Int) ∧
      (0 ≤ (wd.good_count : Int) + dg →
        ((wd.update_counts dg ds now).good_count : Int) = (wd.good_count : Int) + dg) ∧
      ((wd.good_count : Int) + dg < 0 → (wd.update_counts dg ds now).good_count = 0) ∧
      (0 ≤ (wd.spam_count : Int) + ds →
        ((wd.update_counts dg ds now).spam_count : Int) = (wd.spam_count : Int) + ds) ∧
      ((wd.spam_count : Int) + ds < 0 → (wd.update_counts dg ds now).spam_count = 0) ∧
      (wd.last_update ≤ now → wd.last_update ≤ (wd.update_counts dg ds now).last_update)) ∧
    (∀ (db : WordDatabase) (updates : List (String × Int × Int)) (now : Nat) (k : String),
      k ∈ updates.map Prod.fst →
      (db.update_word_counts updates now).get_word_data k ≠ none) := by
  constructor
  · intro wd dg ds now
    simp only [WordData.update_counts]
    refine ⟨?_, ?_, ?_, ?_, ?_, ?_, ?_⟩ <;> intros <;> omega
  · intro db updates now k h
    unfold WordDatabase.update_word_counts WordDatabase.get_word_data
    exact foldl_update_creates updates db.words now k h

/-- Claim C3 witness: the scenarios of `test_update_counts` and
`test_concurrent_updates` — `(5,3)` updated by `(+2,-1)` accumulates to
`(7,2)`; `(7,2)` updated by `(-10,-5)` clamps to `(0,0)`; a bulk update
creates the missing record `"concurrent"`. -/
theorem C3_bulk_update_clamps_witness :
    ((WordData.mk "test" 5 3 0).update_counts 2 (-1) 1).good_count = 7 ∧
    ((WordData.mk "test" 5 3 0).update_counts 2 (-1) 1).spam_count = 2 ∧
    ((WordData.mk "test" 7 2 1).update_counts (-10) (-5) 2).good_count = 0 ∧
    ((WordData.mk "test" 7 2 1).update_counts (-10) (-5) 2).spam_count = 0 ∧
    (WordDatabase.empty.update_word_counts
        [("concurrent", 3, 2), ("concurrent", 1, 4)] 0).get_word_data "concurrent"
      ≠ none := by
  have h := C3_bulk_update_clamps
  refine ⟨?_, ?_, ?_, ?_, ?_⟩
  · have hg := (h.1 (WordData.mk "test" 5 3 0) 2 (-1) 1).2.2.1 (by decide)
    simp only [show (WordData.mk "test" 5 3 0).good_count = 5 from rfl] at hg
    omega
  · have hs := (h.1 (WordData.mk "test" 5 3 0) 2 (-1) 1).2.2.2.2.1 (by decide)
    simp only [show (WordData.mk "test" 5 3 0).spam_count = 3 from rfl] at hs
    omega
  · exact (h.1 (WordData.mk "test" 7 2 1) (-10) (-5) 2).2.2.2.1 (by decide)
  · exact (h.1 (WordData.mk "test" 7 2 1) (-10) (-5) 2).2.2.2.2.2.1 (by decide)
  · exact h.2 WordDatabase.empty [("concurrent", 3, 2), ("concurrent", 1, 4)] 0
      "concurrent" (by decide)

/-- Claim C8: `cleanup(max_count, max_age_days)` removes exactly the
records with `good_count + spam_count ≤ max_count` AND `last_update` older
than `now - max_age_days` days (the age predicate vacuously true when
`max_age_days = 0`), returns the number of records removed, and never
removes a record whose `good_count + spam_count > max_count`. -/
theorem C8_cleanup_exact :
    ∀ (db : WordDatabase) (maxCount maxAgeDays now : Nat),
      ((db.cleanup_old_words maxCount maxAgeDays now).1
          = (db.words.filter (fun e => cleanupPred maxCount maxAgeDays now e.2)).length ∧
       (db.cleanup_old_words maxCount maxAgeDays now).1
          + (db.cleanup_old_words maxCount maxAgeDays now).2.words.length
          = db.words.length) ∧
      (∀ k wd, (db.words.map Prod.fst).Nodup → db.get_word_data k = some wd →
        (db.cleanup_old_words maxCount maxAgeDays now).2.get_word_data k
          = if cleanupPred maxCount maxAgeDays now wd then none else some wd) ∧
      (∀ k wd, db.get_word_data k = some wd →
        maxCount < wd.good_count + wd.spam_count →
        (db.cleanup_old_words maxCount maxAgeDays now).2.get_word_data k = some wd) ∧
      (∀ wd, maxAgeDays = 0 →
        cleanupPred maxCount maxAgeDays now wd
          = decide (wd.good_count + wd.spam_count ≤ maxCount)) := by
  intro db maxCount maxAgeDays now
  refine ⟨⟨rfl, ?_⟩, ?_, ?_, ?_⟩
  · exact length_filter_partition db.words _
  · intro k wd hnd h
    unfold WordDatabase.cleanup_old_words WordDatabase.get_word_data at *
    cases hp : cleanupPred maxCount maxAgeDays now wd with
    | true =>
        simp only [if_pos rfl]
        exact filter_lookup_neg db.words k wd
          (fun x => ! cleanupPred maxCount maxAgeDays now x) hnd h (by simp [hp])
    | false =>
        simp only [Bool.false_eq_true, reduceIte]
        exact filter_lookup_pos db.words k wd
          (fun x => ! cleanupPred maxCount maxAgeDays now x) h (by simp [hp])
  · intro k wd h htot
    unfold WordDatabase.cleanup_old_words WordDatabase.get_word_data at *
    have hp : cleanupPred maxCount maxAgeDays now wd = false := by
      simp only [cleanupPred, Bool.and_eq_false_iff]
      left
      simpa using htot
    exact filter_lookup_pos db.words k wd
      (fun x => ! cleanupPred maxCount maxAgeDays now x) h (by simp [hp])
  · intro wd hage
    subst hage
    simp [cleanupPred]

/-- Claim C8 witness: the scenario of `test_cleanup_operations` — from
records `common (10,5)`, `rare1 (1,1)`, `rare2 (2,0)`, `old (1,0)` a
cleanup with `max_count=3, max_age_days=0` removes exactly the three rare
records and keeps `common`, whose total count exceeds 3. -/
theorem C8_cleanup_exact_witness :
    ((WordDatabase.mk
        [("common", WordData.mk "common" 10 5 0), ("rare1", WordData.mk "rare1" 1 1 0),
         ("rare2", WordData.mk "rare2" 2 0 0), ("old", WordData.mk "old" 1 0 0)]
        [] 0 0).cleanup_old_words 3 0 0).1 = 3 ∧
    ((WordDatabase.mk
        [("common", WordData.mk "common" 10 5 0), ("rare1", WordData.mk "rare1" 1 1 0),
         ("rare2", WordData.mk "rare2" 2 0 0), ("old", WordData.mk "old" 1 0 0)]
        [] 0 0).cleanup_old_words 3 0 0).2.get_word_data "common"
      = some (WordData.mk "common" 10 5 0) ∧
    ((WordDatabase.mk
        [("common", WordData.mk "common" 10 5 0), ("rare1", WordData.mk "rare1" 1 1 0),
         ("rare2", WordData.mk "rare2" 2 0 0), ("old", WordData.mk "old" 1 0 0)]
        [] 0 0).cleanup_old_words 3 0 0).2.get_word_data "rare1" = none := by
  have h := C8_cleanup_exact
    (WordDatabase.mk
       [("common", WordData.mk "common" 10 5 0), ("rare1", WordData.mk "rare1" 1 1 0),
        ("rare2", WordData.mk "rare2" 2 0 0), ("old", WordData.mk "old" 1 0 0)]
       [] 0 0) 3 0 0
  refine ⟨?_, ?_, ?_⟩
  · exact h.1.1.trans (by decide)
  · exact (h.2.2.1 "common" (WordData.mk "common" 10 5 0) (by decide)
      (by decide)).trans rfl
  · have hr := h.2.1 "rare1" (WordData.mk "rare1" 1 1 0) (by decide) (by decide)
    rw [hr]
    decide

/-- Claim C7: importing the complete export of a store into a fresh store
reproduces every record's `good_count` and `spam_count` (the `last_update`
may be refreshed to the import time); import returns the number of records
applied and never touches the target's message registry or global
counters. -/
theorem C7_export_import_roundtrip :
    ∀ (db : WordDatabase) (now : Nat),
      (db.words.map Prod.fst).Nodup →
      (WordDatabase.empty.import_words db.export_words now).1
        = db.export_words.length ∧
      (∀ k, ((WordDatabase.empty.import_words db.export_words now).2.get_word_data k).map
              (fun wd => (wd.good_count, wd.spam_count))
            = (db.get_word_data k).map (fun wd => (wd.good_count, wd.spam_count))) ∧
      (∀ (target : WordDatabase) (entries : List (String × Nat × Nat)),
        (target.import_words entries now).2.messages = target.messages ∧
        (target.import_words entries now).2.good_message_count
          = target.good_message_count ∧
        (target.import_words entries now).2.spam_message_count
          = target.spam_message_count) := by
  intro db now hnd
  refine ⟨rfl, ?_, ?_⟩
  · intro k
    have hents : (db.export_words.map Prod.fst).Nodup := by
      unfold WordDatabase.export_words
      rw [export_keys db.words]
      exact hnd
    unfold WordDatabase.import_words WordDatabase.get_word_data WordDatabase.empty
    simp only
    rw [importList_lookup _ _ _ _ hents]
    unfold WordDatabase.export_words
    rw [lookup_map_counts db.words k]
    cases hw : db.words.lookup k with
    | none => simp [List.lookup]
    | some wd => simp
  · intro target entries
    exact ⟨rfl, rfl, rfl⟩

/-- Claim C7 witness: the scenario of `test_export_import` — exporting the
three records `word1 (5,3)`, `word2 (2,8)`, `word3 (10,1)` and importing
into a fresh store reports 3 records applied and reproduces the counts of
`word2`, leaving the fresh store's registry empty. -/
theorem C7_export_import_roundtrip_witness :
    (WordDatabase.empty.import_words
        (WordDatabase.mk
          [("word1", WordData.mk "word1" 5 3 7), ("word2", WordData.mk "word2" 2 8 7),
           ("word3", WordData.mk "word3" 10 1 7)] [] 0 0).export_words 9).1 = 3 ∧
    ((WordDatabase.empty.import_words
        (WordDatabase.mk
          [("word1", WordData.mk "word1" 5 3 7), ("word2", WordData.mk "word2" 2 8 7),
           ("word3", WordData.mk "word3" 10 1 7)] [] 0 0).export_words 9).2.get_word_data
        "word2").map (fun wd => (wd.good_count, wd.spam_count)) = some (2, 8) ∧
    (WordDatabase.empty.import_words
        (WordDatabase.mk
          [("word1", WordData.mk "word1" 5 3 7), ("word2", WordData.mk "word2" 2 8 7),
           ("word3", WordData.mk "word3" 10 1 7)] [] 0 0).export_words 9).2.messages
      = [] := by
  have h := C7_export_import_roundtrip
    (WordDatabase.mk
      [("word1", WordData.mk "word1" 5 3 7), ("word2", WordData.mk "word2" 2 8 7),
       ("word3", WordData.mk "word3" 10 1 7)] [] 0 0) 9 (by decide)
  refine ⟨?_, ?_, ?_⟩
  · exact h.1.trans (by decide)
  · exact (h.2.1 "word2").trans (by decide)
  · exact ((h.2.2 WordDatabase.empty
      (WordDatabase.mk
        [("word1", WordData.mk "word1" 5 3 7), ("word2", WordData.mk "word2" 2 8 7),
         ("word3", WordData.mk "word3" 10 1 7)] [] 0 0).export_words).1).trans rfl

/-- Claim C2: the global counters stay in lock-step with the registry.
For every sequence of register/unregister operations starting from a fresh
database, `good_message_count` and `spam_message_count` equal the number of
digests currently registered as good and spam; moreover re-registering a
present digest with the same label changes nothing, registering an absent
digest stores the entry and increments the matching counter, re-registering
with a different label stores the new label, decrements the old label's
counter and increments the new one, and unregistering removes the entry and
decrements the matching counter. -/
theorem C2_counters_lockstep :
    (∀ ops : List RegistryOp,
      (runRegistryOps WordDatabase.empty ops).good_message_count
        = countLabel false (runRegistryOps WordDatabase.empty ops).messages ∧
      (runRegistryOps WordDatabase.empty ops).spam_message_count
        = countLabel true (runRegistryOps WordDatabase.empty ops).messages) ∧
    (∀ (db : WordDatabase) (d : String) (l : Bool),
      db.messages.lookup d = some l → db.add_message d l = db) ∧
    (∀ (db : WordDatabase) (d : String) (l : Bool),
      db.messages.lookup d = none →
        (db.add_message d l).messages.lookup d = some l ∧
        (db.add_message d l).good_message_count
          = db.good_message_count + (if l then 0 else 1) ∧
        (db.add_message d l).spam_message_count
          = db.spam_message_count + (if l then 1 else 0)) ∧
    (∀ (db : WordDatabase) (d : String) (old new : Bool),
      countersConsistent db → db.messages.lookup d = some old → old ≠ new →
        (db.add_message d new).messages.lookup d = some new ∧
        (new = true →
          (db.add_message d new).good_message_count + 1 = db.good_message_count ∧
          (db.add_message d new).spam_message_count = db.spam_message_count + 1) ∧
        (new = false →
          (db.add_message d new).good_message_count = db.good_message_count + 1 ∧
          (db.add_message d new).spam_message_count + 1 = db.spam_message_count)) ∧
    (∀ (db : WordDatabase) (d : String) (old : Bool),
      countersConsistent db → db.messages.lookup d = some old →
        (db.remove_message d).1 = some old ∧
        ((db.messages.map Prod.fst).Nodup →
          (db.remove_message d).2.messages.lookup d = none) ∧
        (old = true →
          (db.remove_message d).2.spam_message_count + 1 = db.spam_message_count ∧
          (db.remove_message d).2.good_message_count = db.good_message_count) ∧
        (old = false →
          (db.remove_message d).2.good_message_count + 1 = db.good_message_count ∧
          (db.remove_message d).2.spam_message_count = db.spam_message_count)) := by
  refine ⟨?_, ?_, ?_, ?_, ?_⟩
  · intro ops
    exact countersConsistent_run WordDatabase.empty ops ⟨rfl, rfl⟩
  · intro db d l h
    simp [WordDatabase.add_message, h]
  · intro db d l h
    refine ⟨?_, ?_, ?_⟩
    · simp [WordDatabase.add_message, h, lookup_setAssoc_self]
    · cases l <;> simp [WordDatabase.add_message, h]
    · cases l <;> simp [WordDatabase.add_message, h]
  · intro db d old new hc h hne
    have hpos := countLabel_pos db.messages d old h
    have hol : ¬ old = new := hne
    refine ⟨?_, ?_, ?_⟩
    · simp [WordDatabase.add_message, h, hol, lookup_setAssoc_self]
    · rintro rfl
      have hgood : 1 ≤ db.good_message_count := by
        cases old with
        | true => exact absurd rfl hol
        | false => rw [hc.1]; exact hpos
      constructor
      · simp only [WordDatabase.add_message, h, if_neg hol]
        simp only [if_pos rfl, reduceIte]
        omega
      · simp [WordDatabase.add_message, h, hol]
    · rintro rfl
      have hspam : 1 ≤ db.spam_message_count := by
        cases old with
        | true => rw [hc.2]; exact hpos
        | false => exact absurd rfl hol
      constructor
      · simp [WordDatabase.add_message, h, hol]
      · simp only [WordDatabase.add_message, h, if_neg hol]
        simp only [Bool.false_eq_true, reduceIte]
        omega
  · intro db d old hc h
    have hpos := countLabel_pos db.messages d old h
    refine ⟨?_, ?_, ?_, ?_⟩
    · simp [WordDatabase.remove_message, h]
    · intro hnd
      simp only [WordDatabase.remove_message, h]
      exact lookup_removeAssoc_self db.messages d hnd
    · rintro rfl
      have hspam : 1 ≤ db.spam_message_count := by
        rw [hc.2]; exact hpos
      constructor
      · simp only [WordDatabase.remove_message, h]
        simp only [if_pos rfl, reduceIte]
        omega
      · simp [WordDatabase.remove_message, h]
    · rintro rfl
      have hgood : 1 ≤ db.good_message_count := by
        rw [hc.1]; exact hpos
      constructor
      · simp only [WordDatabase.remove_message, h]
        simp only [Bool.false_eq_true, reduceIte]
        omega
      · simp [WordDatabase.remove_message, h]

/-- Claim C2 witness: the scenario of `test_message_counts` — registering
`msg1` as spam, `msg2` as good and `msg3` as spam yields counters `(1, 2)`
matching the registry, and the behaviour of the individual cases at
concrete inputs. -/
theorem C2_counters_lockstep_witness :
    (runRegistryOps WordDatabase.empty
        [RegistryOp.add "msg1" true, RegistryOp.add "msg2" false,
         RegistryOp.add "msg3" true]).good_message_count = 1 ∧
    (runRegistryOps WordDatabase.empty
        [RegistryOp.add "msg1" true, RegistryOp.add "msg2" false,
         RegistryOp.add "msg3" true]).spam_message_count = 2 ∧
    ((WordDatabase.empty.add_message "d" false).add_message "d" true).messages.lookup "d"
      = some true := by
  have h := C2_counters_lockstep
  refine ⟨?_, ?_, ?_⟩
  · exact (h.1 _).1.trans (by decide)
  · exact (h.1 _).2.trans (by decide)
  · exact (h.2.2.2.1 (WordDatabase.empty.add_message "d" false) "d" false true
      ⟨by decide, by decide⟩ (by decide) (by decide)).1

theorem add_message_lookup_self (db : WordDatabase) (d : String) (l : Bool) :
    (db.add_message d l).messages.lookup d = some l := by
  unfold WordDatabase.add_message
  cases h : db.messages.lookup d with
  | none => simp [lookup_setAssoc_self]
  | some old =>
      by_cases ho : old = l
      · subst ho
        simp [h]
      · simp [ho, lookup_setAssoc_self]

theorem train_same_label_noop (db : WordDatabase) (digest : String)
    (keys : List String) (mr : Nat) (isSpam : Bool) (now : Nat)
    (h : db.messages.lookup digest = some isSpam) :
    train_message db digest keys mr isSpam false now = (false, db) := by
  simp [train_message, h]

/-- Claim C4: training the same message with the same label twice with
`force_update = false` is equivalent to training it once — provided the
digest is not already registered with that label, the first call returns
true, and the second call returns false and leaves the whole store (term
records, registry and global counters) unchanged. -/
theorem C4_train_idempotent :
    ∀ (db : WordDatabase) (digest : String) (keys : List String) (mr : Nat)
      (isSpam : Bool) (now now' : Nat),
      db.messages.lookup digest ≠ some isSpam →
      (train_message db digest keys mr isSpam false now).1 = true ∧
      (train_message (train_message db digest keys mr isSpam false now).2
          digest keys mr isSpam false now').1 = false ∧
      (train_message (train_message db digest keys mr isSpam false now).2
          digest keys mr isSpam false now').2
        = (train_message db digest keys mr isSpam false now).2 := by
  intro db digest keys mr isSpam now now' hne
  have hl : (train_message db digest keys mr isSpam false now).2.messages.lookup
      digest = some isSpam := by
    cases h : db.messages.lookup digest with
    | none =>
        simp only [train_message, h]
        exact add_message_lookup_self _ _ _
    | some old =>
        have ho : ¬ old = isSpam := fun he => hne (he ▸ h)
        simp only [train_message, h, if_neg ho]
        exact add_message_lookup_self _ _ _
  have hfirst : (train_message db digest keys mr isSpam false now).1 = true := by
    cases h : db.messages.lookup digest with
    | none => simp [train_message, h]
    | some old =>
        have ho : ¬ old = isSpam := fun he => hne (he ▸ h)
        simp [train_message, h, ho]
  have h2 := train_same_label_noop
    (train_message db digest keys mr isSpam false now).2 digest keys mr isSpam now' hl
  exact ⟨hfirst, by rw [h2], by rw [h2]⟩

/-- Claim C4 witness: training the message with digest `"d"` and token
keys `hello, world, hello` as good on an empty store succeeds, and an
immediate duplicate training returns false and changes nothing. -/
theorem C4_train_idempotent_witness :
    (train_message WordDatabase.empty "d" ["hello", "world", "hello"] 2 false false 5).1
      = true ∧
    (train_message
        (train_message WordDatabase.empty "d" ["hello", "world", "hello"] 2 false false 5).2
        "d" ["hello", "world", "hello"] 2 false false 6).1 = false ∧
    (train_message
        (train_message WordDatabase.empty "d" ["hello", "world", "hello"] 2 false false 5).2
        "d" ["hello", "world", "hello"] 2 false false 6).2
      = (train_message WordDatabase.empty "d" ["hello", "world", "hello"] 2 false false 5).2 :=
  C4_train_idempotent WordDatabase.empty "d" ["hello", "world", "hello"] 2 false 5 6
    (by decide)

theorem termProb_empty (cfg : FilterConfig) (k : String)
    (h : 1 ≤ cfg.min_word_count) :
    termProb WordDatabase.empty cfg k = cfg.new_word_score := by
  have hc : (WordData.mk k 0 0 0).good_count + (WordData.mk k 0 0 0).spam_count
      < cfg.min_word_count := by
    simp
    omega
  simp [termProb, WordDatabase.get_word_data, WordDatabase.empty, List.lookup,
    WordData.calculate_probability, hc]
  intro h0
  exact absurd h0 (by omega)

/-- Claim C5: scoring any message against an empty store (no trained
messages, no term records) yields `probability = new_word_score`,
`is_spam = false` and `terms_used = 0` — for every configuration in which
the prior sits closer to 0.5 than `min_distance_for_score` (as the stored
IEEE-754 doubles 0.4 and 0.1 of the defaults do) and below
`spam_threshold`. -/
theorem C5_empty_store_scoring :
    ∀ (cfg : FilterConfig) (keys : List String),
      1 ≤ cfg.min_word_count →
      distHalf cfg.new_word_score < cfg.min_distance_for_score →
      cfg.new_word_score < cfg.spam_threshold →
      (score_message WordDatabase.empty cfg keys).probability = cfg.new_word_score ∧
      (score_message WordDatabase.empty cfg keys).is_spam = false ∧
      (score_message WordDatabase.empty cfg keys).terms_used = 0 := by
  intro cfg keys hmin hdist hthr
  have hfilter : ((keyCounts keys cfg.max_word_repeats).map
      (fun kc => (kc.1, kc.2, termProb WordDatabase.empty cfg kc.1))).filter
        (fun c => decide (cfg.min_distance_for_score ≤ distHalf c.2.2)) = [] := by
    apply List.filter_eq_nil_iff.mpr
    intro c hc
    obtain ⟨kc, _, rfl⟩ := List.mem_map.mp hc
    simp only [decide_eq_true_eq]
    rw [termProb_empty cfg kc.1 hmin]
    exact not_le.mpr hdist
  have hsel : selectTerms cfg
      ((keyCounts keys cfg.max_word_repeats).map
        (fun kc => (kc.1, kc.2, termProb WordDatabase.empty cfg kc.1))) = [] := by
    unfold selectTerms
    rw [hfilter]
    cases cfg.extend_top_terms <;> simp [sortTerms]
  have hscore : score_message WordDatabase.empty cfg keys
      = { probability := cfg.new_word_score,
          is_spam := decide (cfg.spam_threshold ≤ cfg.new_word_score),
          confidence := 0,
          terms_used := 0 } := by
    unfold score_message
    rw [hsel]
    simp [mkScore]
  rw [hscore]
  refine ⟨rfl, ?_, rfl⟩
  simp only [decide_eq_false_iff_not]
  exact not_le.mpr hthr

/-- Claim C5 witness: with the default configuration (doubles rendered
exactly) a three-word message scored against the fresh store gets
probability `new_word_score`, `is_spam = false` and no terms used. -/
theorem C5_empty_store_scoring_witness :
    (score_message WordDatabase.empty defaultConfig ["this", "test", "message"]).probability
      = defaultConfig.new_word_score ∧
    (score_message WordDatabase.empty defaultConfig ["this", "test", "message"]).is_spam
      = false ∧
    (score_message WordDatabase.empty defaultConfig ["this", "test", "message"]).terms_used
      = 0 :=
  C5_empty_store_scoring defaultConfig ["this", "test", "message"]
    (by decide)
    (by
      simp only [distHalf, defaultConfig]
      rw [show (3602879701896397 : ℚ) / 9007199254740992 - 1/2
          = -(900719925474099 / 9007199254740992) by norm_num]
      rw [abs_neg, abs_of_nonneg (by norm_num)]
      norm_num)
    (by norm_num [defaultConfig])

theorem toNat_ofNat_of_valid (n : Nat) (h : n.isValidChar) :
    (Char.ofNat n).toNat = n := by
  rw [Char.ofNat, dif_pos h]
  rfl

theorem lowerChar_idem (c : Char) : lowerChar (lowerChar c) = lowerChar c := by
  unfold lowerChar
  by_cases h : 65 ≤ c.toNat ∧ c.toNat ≤ 90
  · rw [if_pos h]
    have hv : (c.toNat + 32).isValidChar := Or.inl (by omega)
    rw [if_neg]
    rw [toNat_ofNat_of_valid _ hv]
    omega
  · simp only [if_neg h]

theorem lowerStr_idem (s : String) : lowerStr (lowerStr s) = lowerStr s := by
  show String.mk ((s.data.map lowerChar).map lowerChar) = String.mk (s.data.map lowerChar)
  refine congrArg String.mk ?_
  rw [List.map_map]
  exact List.map_congr_left (fun a _ => lowerChar_idem a)

theorem rstripChars_append_congr (p b1 b2 : List Char)
    (h : rstripChars b1 = rstripChars b2) :
    rstripChars (p ++ b1) = rstripChars (p ++ b2) := by
  unfold rstripChars at *
  have h' : b1.reverse.dropWhile isWS = b2.reverse.dropWhile isWS := by
    have hr := congrArg List.reverse h
    simpa using hr
  rw [List.reverse_append, List.reverse_append, List.dropWhile_append,
    List.dropWhile_append, h']

theorem rstrip_append_congr (p b1 b2 : String) (h : rstrip b1 = rstrip b2) :
    rstrip (p ++ b1) = rstrip (p ++ b2) := by
  unfold rstrip at *
  have hc : rstripChars b1.data = rstripChars b2.data := congrArg String.data h
  rw [String.data_append, String.data_append]
  exact congrArg String.mk (rstripChars_append_congr p.data b1.data b2.data hc)

theorem digestInput_congr (m1 m2 : EmailMessage)
    (hf : m1.get_header "from" "" = m2.get_header "from" "")
    (hs : m1.get_header "subject" "" = m2.get_header "subject" "")
    (hb : rstrip m1.body = rstrip m2.body) :
    digestInput m1 = digestInput m2 := by
  unfold digestInput
  rw [hf, hs]
  exact rstrip_append_congr _ _ _ hb

theorem hexChar_mem (n : Nat) : hexChar n ∈ "0123456789abcdef".data := by
  unfold hexChar
  have hlen : ("0123456789abcdef".data).length = 16 := by decide
  have h : n % 16 < ("0123456789abcdef".data).length := by
    rw [hlen]
    exact Nat.mod_lt _ (by omega)
  rw [List.getD_eq_getElem _ _ h]
  exact List.getElem_mem h

theorem concatMapHex_mem (bytes : List Nat) (c : Char)
    (hc : c ∈ concatMapHex bytes) : c ∈ "0123456789abcdef".data := by
  induction bytes with
  | nil => simp [concatMapHex] at hc
  | cons b rest ih =>
      simp only [concatMapHex, List.mem_append] at hc
      rcases hc with hc | hc
      · simp only [byteHex, List.mem_cons, List.not_mem_nil, or_false] at hc
        rcases hc with hc | hc <;> (subst hc; exact hexChar_mem _)
      · exact ih hc

theorem concatMapHex_length (bytes : List Nat) :
    (concatMapHex bytes).length = 2 * bytes.length := by
  induction bytes with
  | nil => rfl
  | cons b rest ih =>
      simp only [concatMapHex, byteHex, List.length_append, List.length_cons,
        List.length_nil, ih, List.length_cons]
      omega

theorem md5Bytes_length (msg : List Nat) : (md5Bytes msg).length = 16 := by
  unfold md5Bytes leBytes
  simp

set_option maxRecDepth 400000 in
/-- Claim C6: the digest is a deterministic function of the `From` header,
the `Subject` header and the body, concatenated in that order with single
newline separators and trailing whitespace trimmed, rendered as 32
lowercase hex characters; messages agreeing on those inputs (such as ones
differing only in the order of other headers or in trailing whitespace)
have equal digests, and the two distinct test messages have different
digests. -/
theorem C6_digest_spec :
    (∀ m1 m2 : EmailMessage,
      m1.get_header "from" "" = m2.get_header "from" "" →
      m1.get_header "subject" "" = m2.get_header "subject" "" →
      rstrip m1.body = rstrip m2.body →
      m1.digest = m2.digest) ∧
    (∀ m : EmailMessage,
      m.digest.length = 32 ∧ ∀ c ∈ m.digest.data, c ∈ "0123456789abcdef".data) ∧
    (parseMessage
        "From: test@example.com\nTo: user@example.com\nSubject: Test\n\nHello world!\n").digest
      = (parseMessage
        "To: user@example.com\nFrom: test@example.com\nSubject: Test\n\nHello world!   \n\n").digest ∧
    (parseMessage
        "From: test@example.com\nTo: user@example.com\nSubject: Test\n\nHello world!\n").digest
      ≠ (parseMessage
        "From: different@example.com\nSubject: Different\n\nDifferent content!\n").digest := by
  refine ⟨?_, ?_, ?_, ?_⟩
  · intro m1 m2 hf hs hb
    unfold EmailMessage.digest
    rw [digestInput_congr m1 m2 hf hs hb]
  · intro m
    constructor
    · show (concatMapHex (md5Bytes (utf8Encode (digestInput m).data))).length = 32
      rw [concatMapHex_length, md5Bytes_length]
    · intro c hc
      exact concatMapHex_mem _ c hc
  · decide
  · decide

/-- Claim C6 witness: the congruence applied at the two concrete messages
of the test that differ only in the order of the non-digested `To` header
and in trailing whitespace. -/
theorem C6_digest_spec_witness :
    (parseMessage
        "From: test@example.com\nSubject: Test\nTo: user@example.com\n\nHello world!\n").digest
      = (parseMessage
        "To: user@example.com\nFrom: test@example.com\nSubject: Test\n\nHello world!  \n").digest :=
  C6_digest_spec.1
    (parseMessage
      "From: test@example.com\nSubject: Test\nTo: user@example.com\n\nHello world!\n")
    (parseMessage
      "To: user@example.com\nFrom: test@example.com\nSubject: Test\n\nHello world!  \n")
    (by decide) (by decide) (by decide)

/-- Claim C10: `get_header` is total and case-insensitive: it returns the
stored value when the header is present (in any case variant), the
caller-supplied default otherwise (the empty string when no default is
given), and `has_header` returns true exactly when the header is
present. -/
theorem C10_get_header_total :
    (∀ (m : EmailMessage) (name d v : String),
      m.headers.lookup (lowerStr name) = some v →
        m.get_header name d = v ∧ m.has_header name = true) ∧
    (∀ (m : EmailMessage) (name d : String),
      m.headers.lookup (lowerStr name) = none →
        m.get_header name d = d ∧ m.has_header name = false) ∧
    (∀ (m : EmailMessage) (name : String),
      m.get_header_default name = m.get_header name "") ∧
    (∀ (m : EmailMessage) (name d : String),
      m.get_header name d = m.get_header (lowerStr name) d ∧
      m.has_header name = m.has_header (lowerStr name)) := by
  refine ⟨?_, ?_, ?_, ?_⟩
  · intro m name d v h
    exact ⟨by simp [EmailMessage.get_header, h], by simp [EmailMessage.has_header, h]⟩
  · intro m name d h
    exact ⟨by simp [EmailMessage.get_header, h], by simp [EmailMessage.has_header, h]⟩
  · intro m name
    rfl
  · intro m name d
    unfold EmailMessage.get_header EmailMessage.has_header
    rw [lowerStr_idem]
    exact ⟨rfl, rfl⟩

/-- Claim C10 witness: on the parsed test message, `get_header` finds
`from` and `x-custom-header` case-insensitively, returns `""` and then
`"default"` for a missing header, and `has_header` answers accordingly. -/
theorem C10_get_header_total_witness :
    (parseMessage
        "From: sender@example.com\nSubject: Important Message\nX-Custom-Header: Custom Value\n\nBody content here.\n").get_header
      "From" "" = "sender@example.com" ∧
    (parseMessage
        "From: sender@example.com\nSubject: Important Message\nX-Custom-Header: Custom Value\n\nBody content here.\n").get_header
      "x-custom-header" "" = "Custom Value" ∧
    (parseMessage
        "From: sender@example.com\nSubject: Important Message\nX-Custom-Header: Custom Value\n\nBody content here.\n").get_header
      "nonexistent" "default" = "default" ∧
    (parseMessage
        "From: sender@example.com\nSubject: Important Message\nX-Custom-Header: Custom Value\n\nBody content here.\n").has_header
      "from" = true ∧
    (parseMessage
        "From: sender@example.com\nSubject: Important Message\nX-Custom-Header: Custom Value\n\nBody content here.\n").has_header
      "nonexistent" = false := by
  refine ⟨?_, ?_, ?_, ?_, ?_⟩
  · exact (C10_get_header_total.1
      (parseMessage
        "From: sender@example.com\nSubject: Important Message\nX-Custom-Header: Custom Value\n\nBody content here.\n")
      "From" "" "sender@example.com" (by decide)).1
  · exact (C10_get_header_total.1
      (parseMessage
        "From: sender@example.com\nSubject: Important Message\nX-Custom-Header: Custom Value\n\nBody content here.\n")
      "x-custom-header" "" "Custom Value" (by decide)).1
  · exact (C10_get_header_total.2.1
      (parseMessage
        "From: sender@example.com\nSubject: Important Message\nX-Custom-Header: Custom Value\n\nBody content here.\n")
      "nonexistent" "default" (by decide)).1
  · exact (C10_get_header_total.1
      (parseMessage
        "From: sender@example.com\nSubject: Important Message\nX-Custom-Header: Custom Value\n\nBody content here.\n")
      "from" "" "sender@example.com" (by decide)).2
  · exact (C10_get_header_total.2.1
      (parseMessage
        "From: sender@example.com\nSubject: Important Message\nX-Custom-Header: Custom Value\n\nBody content here.\n")
      "nonexistent" "" (by decide)).2

/-- Claim C9: tokenizing the body `"free money now"` with
`max_phrase_terms=2` and `min_term_length=3` emits exactly the token texts
`free`, `money`, `now`, `"free money"`, `"money now"`; in general every
contiguous `n`-gram of the body word stream with
`n ∈ [min_phrase_terms .. max_phrase_terms]` appears as a PHRASE token
joined by single spaces, and every emitted body token is either a WORD
token for one of the extracted words or such an `n`-gram PHRASE token. -/
theorem C9_phrase_tokens :
    ((tokenizeBody defaultTokenizerConfig "free money now").map Token.text).dedup
      = ["free", "money", "now", "free money", "money now"] ∧
    (∀ (cfg : TokenizerConfig) (body : String) (n i : Nat),
      cfg.min_phrase_terms ≤ n → n ≤ cfg.max_phrase_terms →
      i + n ≤ (extractWords cfg.replace_non_ascii cfg.min_term_length
        cfg.max_term_length body).length →
      ∃ t ∈ tokenizeBody cfg body,
        t.text = joinSpace (((extractWords cfg.replace_non_ascii cfg.min_term_length
          cfg.max_term_length body).drop i).take n) ∧
        t.is_phrase = true) ∧
    (∀ (cfg : TokenizerConfig) (body : String) (t : Token),
      t ∈ tokenizeBody cfg body →
      (t.text ∈ extractWords cfg.replace_non_ascii cfg.min_term_length
          cfg.max_term_length body ∧ t.flags = FLAG_WORD ||| FLAG_BODY) ∨
      (∃ n, cfg.min_phrase_terms ≤ n ∧ n ≤ cfg.max_phrase_terms ∧
        t.text ∈ ngrams n (extractWords cfg.replace_non_ascii cfg.min_term_length
          cfg.max_term_length body) ∧ t.flags = FLAG_PHRASE ||| FLAG_BODY)) := by
  refine ⟨by decide, ?_, ?_⟩
  · intro cfg body n i hmin hmax hlen
    refine ⟨Token.mk
      (joinSpace (((extractWords cfg.replace_non_ascii cfg.min_term_length
        cfg.max_term_length body).drop i).take n))
      (FLAG_PHRASE ||| FLAG_BODY) "", ?_, rfl,
      by simp [Token.is_phrase, FLAG_PHRASE, FLAG_BODY]⟩
    unfold tokenizeBody
    refine List.mem_append_right _ ?_
    refine List.mem_flatMap.mpr ⟨n, ?_, ?_⟩
    · refine List.mem_range'_1.mpr ⟨hmin, ?_⟩
      omega
    · refine List.mem_map.mpr ⟨_, ?_, rfl⟩
      unfold ngrams
      refine List.mem_map.mpr ⟨i, ?_, rfl⟩
      refine List.mem_range.mpr ?_
      omega
  · intro cfg body t ht
    unfold tokenizeBody at ht
    rcases List.mem_append.mp ht with h | h
    · obtain ⟨w, hw, rfl⟩ := List.mem_map.mp h
      exact Or.inl ⟨hw, rfl⟩
    · obtain ⟨n, hn, hmem⟩ := List.mem_flatMap.mp h
      obtain ⟨p, hp, rfl⟩ := List.mem_map.mp hmem
      obtain ⟨hn1, hn2⟩ := List.mem_range'_1.mp hn
      exact Or.inr ⟨n, hn1, by omega, hp, rfl⟩

/-- Claim C9 witness: the 2-gram at position 1 of the word stream of
`"free money now"` — the phrase `"money now"` — is emitted as a PHRASE
token. -/
theorem C9_phrase_tokens_witness :
    ∃ t ∈ tokenizeBody defaultTokenizerConfig "free money now",
      t.text = "money now" ∧ t.is_phrase = true := by
  have h := C9_phrase_tokens.2.1 defaultTokenizerConfig "free money now" 2 1
    (by decide) (by decide) (by decide)
  obtain ⟨t, ht, htext, hph⟩ := h
  exact ⟨t, ht, by rw [htext]; decide, hph⟩

end MailProbe
